import Mathlib

/-!
Verification of the td_pv forecast service against its specification.

The definitions below are shallow embeddings of the Python sources:
`jobs/history_service.py`, `weather_service.py`, `weather_api.py`,
`forecast_pipeline.py`, `forecast_db.py` and `app.py`.  Machine floats are
modelled by `ℚ` where only values matter and by the four-point `PyFloat`
type where finiteness matters; Python dicts keyed by strings are modelled
by functions into `Option`; fallible code returns `Except`.
-/

/-! ## History job orchestrator (`jobs/history_service.py`) -/

/-- A job record, mirroring the dict built in `HistoryJobService.create_job`. -/
structure Job where
  id : String
  state : String
  days : ℤ
  created_at : ℕ
  started_at : Option ℕ
  finished_at : Option ℕ
  error : Option String
deriving DecidableEq, Repr

/-- The mutable state of `HistoryJobService`: the job table `_jobs` and the
single-flight slot `_running_job_id`.  The mutex serializes all access, so
operations are modelled as sequential state transformers. -/
structure HistoryJobService where
  jobs : String → Option Job
  running_job_id : Option String

/-- `HistoryJobService.create_job`.  The fresh uuid and the current time are
external inputs (`new_id`, `now`).  Mirrors the source: if `_running_job_id`
is set, return that job with `started = False` and leave the state alone;
otherwise insert a fresh `queued` job, point the slot at it and return it
with `started = True`. -/
def create_job (s : HistoryJobService) (new_id : String) (now : ℕ) (days : ℤ) :
    (Bool × Option Job) × HistoryJobService :=
  match s.running_job_id with
  | some rid => ((false, s.jobs rid), s)
  | none =>
    let job : Job := ⟨new_id, "queued", days, now, none, none, none⟩
    ((true, some job),
      ⟨fun x => if x = new_id then some job else s.jobs x, some new_id⟩)

/-- `HistoryJobService._set_state`: update the job record under the lock.
(A missing id would be a `KeyError` in Python; callers only pass ids that
are present, which the theorems assume.) -/
def jobs_update (js : String → Option Job) (job_id : String) (f : Job → Job) :
    String → Option Job :=
  fun x => if x = job_id then (js job_id).map f else js x

/-- The update applied on entry to `run_job`. -/
def mark_running (t : ℕ) (j : Job) : Job :=
  { j with state := "running", started_at := some t }

/-- The update applied in `run_job`'s `except` branch. -/
def mark_failed (msg : String) (t : ℕ) (j : Job) : Job :=
  { j with state := "failed", error := some msg, finished_at := some t }

/-- The update applied in `run_job`'s `else` branch. -/
def mark_completed (t : ℕ) (j : Job) : Job :=
  { j with state := "completed", finished_at := some t }

/-- `HistoryJobService.run_job`.  The body of the backfill
(`run_history`) is an external effect whose outcome is passed in as
`outcome` (`.error msg` models an exception with message `msg`).  The
second component of the result is the exception propagated out of
`run_job` to its caller (`some msg` models the bare `raise` in the
`except` branch re-raising the exception); the `finally` block releases
the single-flight slot in both cases. -/
def run_job (s : HistoryJobService) (job_id : String) (t_start t_end : ℕ)
    (outcome : Except String Unit) : HistoryJobService × Option String :=
  let s1 : HistoryJobService :=
    { s with jobs := jobs_update s.jobs job_id (mark_running t_start) }
  let step : HistoryJobService × Option String :=
    match outcome with
    | .error msg =>
      ({ s1 with jobs := jobs_update s1.jobs job_id (mark_failed msg t_end) },
        some msg)
    | .ok _ =>
      ({ s1 with jobs := jobs_update s1.jobs job_id (mark_completed t_end) },
        none)
  let s3 := if step.1.running_job_id = some job_id then
    { step.1 with running_job_id := none } else step.1
  (s3, step.2)

/-- A concrete queued job used for concrete evaluations. -/
def job0 : Job := ⟨"j1", "queued", 3, 0, none, none, none⟩

/-- A service whose single-flight slot holds `job0`. -/
def svcActive : HistoryJobService :=
  ⟨fun x => if x = "j1" then some job0 else none, some "j1"⟩

/-- A service with no active job and an empty job table. -/
def svcIdle : HistoryJobService := ⟨fun _ => none, none⟩

/-- **C1.** Single-flight job creation: with an active job the call returns
that job unchanged with `started = false`; with no active job it creates a
`queued` job with `started = true` which becomes the sole active job; and
for two successive calls starting from an idle service both return the job
created by the first call (same id), with `started` true exactly on the
first. -/
theorem create_job_single_flight
    (s : HistoryJobService) (rid : String) (j : Job)
    (nid nid2 : String) (t t2 : ℕ) (d d2 : ℤ) :
    (s.running_job_id = some rid → s.jobs rid = some j →
      create_job s nid t d = ((false, some j), s))
    ∧ (s.running_job_id = none →
      create_job s nid t d =
        ((true, some ⟨nid, "queued", d, t, none, none, none⟩),
          ⟨fun x => if x = nid then some ⟨nid, "queued", d, t, none, none, none⟩
            else s.jobs x, some nid⟩))
    ∧ (s.running_job_id = none →
      (create_job s nid t d).1.1 = true
      ∧ (create_job (create_job s nid t d).2 nid2 t2 d2).1
          = (false, some ⟨nid, "queued", d, t, none, none, none⟩)) := by
  refine ⟨fun h hj => ?_, fun h => ?_, fun h => ?_⟩
  · unfold create_job
    rw [h]
    dsimp only
    rw [hj]
  · unfold create_job
    rw [h]
  · constructor
    · unfold create_job
      rw [h]
    · unfold create_job
      rw [h]
      simp

/-- Witness for C1: the theorem applied to the concrete idle and active
services. -/
theorem create_job_single_flight_witness :
    (create_job svcActive "n2" 5 7 = ((false, some job0), svcActive))
    ∧ ((create_job svcIdle "n1" 5 7).1.1 = true
      ∧ (create_job (create_job svcIdle "n1" 5 7).2 "n2" 6 7).1
          = (false, some ⟨"n1", "queued", 7, 5, none, none, none⟩)) :=
  ⟨(create_job_single_flight svcActive "j1" job0 "n2" "n2" 5 5 7 7).1 rfl rfl,
   (create_job_single_flight svcIdle "j1" job0 "n1" "n2" 5 6 7 7).2.2 rfl⟩

/-- **C2 counterexample.** The claim says an exception raised during the run
is never propagated out of the orchestrator; but `run_job` ends its
`except` branch with a bare `raise`, so the exception escapes `run_job`
(second component `some "boom"`), even though the job is duly marked
`failed`. -/
theorem run_job_propagates_exception :
    (run_job svcActive "j1" 1 2 (.error "boom")).2 = some "boom"
    ∧ ((run_job svcActive "j1" 1 2 (.error "boom")).1.jobs "j1").map Job.state
        = some "failed" := by
  constructor
  · rfl
  · rfl

/-- **C2 (amended).** On an exception the job is marked `failed` with the
error message and a finish timestamp, the single-flight slot is released,
and the exception is re-raised to the caller of `run_job`; on an
exception-free run the job is marked `completed` with a finish timestamp
and nothing is raised. -/
theorem run_job_failure_handling
    (s : HistoryJobService) (job_id : String) (j : Job) (t1 t2 : ℕ)
    (hj : s.jobs job_id = some j) :
    (∀ msg,
      (run_job s job_id t1 t2 (.error msg)).2 = some msg
      ∧ (run_job s job_id t1 t2 (.error msg)).1.jobs job_id
          = some { j with state := "failed", started_at := some t1,
                          error := some msg, finished_at := some t2 }
      ∧ (s.running_job_id = some job_id →
          (run_job s job_id t1 t2 (.error msg)).1.running_job_id = none))
    ∧ ((run_job s job_id t1 t2 (.ok ())).2 = none
      ∧ (run_job s job_id t1 t2 (.ok ())).1.jobs job_id
          = some { j with state := "completed", started_at := some t1,
                          finished_at := some t2 }
      ∧ (s.running_job_id = some job_id →
          (run_job s job_id t1 t2 (.ok ())).1.running_job_id = none)) := by
  constructor
  · intro msg
    refine ⟨by simp [run_job], ?_, ?_⟩
    · by_cases hc : s.running_job_id = some job_id <;>
        simp [run_job, jobs_update, hj, hc, mark_running, mark_failed]
    · intro hr
      simp [run_job, jobs_update, hr]
  · refine ⟨by simp [run_job], ?_, ?_⟩
    · by_cases hc : s.running_job_id = some job_id <;>
        simp [run_job, jobs_update, hj, hc, mark_running, mark_completed]
    · intro hr
      simp [run_job, jobs_update, hr]

/-- Witness for C2 (amended), at the concrete active service. -/
theorem run_job_failure_handling_witness :
    ((run_job svcActive "j1" 1 2 (.error "boom")).2 = some "boom"
      ∧ (run_job svcActive "j1" 1 2 (.error "boom")).1.jobs "j1"
          = some { job0 with state := "failed", started_at := some 1,
                             error := some "boom", finished_at := some 2 }
      ∧ (svcActive.running_job_id = some "j1" →
          (run_job svcActive "j1" 1 2 (.error "boom")).1.running_job_id = none))
    ∧ (run_job svcActive "j1" 1 2 (.ok ())).2 = none :=
  ⟨(run_job_failure_handling svcActive "j1" job0 1 2 rfl).1 "boom",
   ((run_job_failure_handling svcActive "j1" job0 1 2 rfl).2).1⟩

/-! ## Weather records and the source resolver (`weather_service.py`,
`weather_api.py`) -/

/-- A per-timestamp weather record as produced by
`extract_weather_from_db` (`weather_db.py`) and consumed everywhere:
`{"time": ..., "temp_c": ..., "cloud": ...}` with possibly-null values. -/
structure WxRec where
  time : String
  temp_c : Option ℚ
  cloud : Option ℚ
deriving DecidableEq, Repr

/-- The dict returned by `get_forecast_by_coords` (`weather_api.py`) on a
successful fetch: NOT a list of records but a single mapping with seven
keys (`date`, `location`, `lat`, `lon`, `time`, `temp_c`, `cloud`), the
last three holding parallel lists. -/
structure ApiPayload where
  date : String
  location : String
  lat : ℚ
  lon : ℚ
  times : List String
  temp_c : List (Option ℚ)
  cloud : List (Option ℤ)
deriving DecidableEq, Repr

/-- The Python value bound to `records` inside `get_weather_for_date`: a
list of record dicts (archive source, or `[]` after a failed load), or
the payload dict that `get_forecast_by_coords` returns. -/
inductive Fetched where
  | recs (rs : List WxRec)
  | payload (p : ApiPayload)
deriving DecidableEq, Repr

/-- Python truthiness of the `records` value (`if records:`): a list is
truthy iff non-empty; the payload dict always has seven keys, hence is
truthy. -/
def fetched_truthy : Fetched → Bool
  | .recs rs => !rs.isEmpty
  | .payload _ => true

/-- `_weather_non_null_points` iterates `for rec in records` and calls
`rec.get(...)`.  Over a list of record dicts this counts the records with
a non-null `temp_c` or `cloud`; over the payload dict iteration yields the
string keys, and `str.get` raises `AttributeError` (modelled as
`.error`). -/
def weather_non_null_points : Fetched → Except String ℕ
  | .recs rs => .ok (rs.countP (fun r => r.temp_c.isSome || r.cloud.isSome))
  | .payload _ => .error "AttributeError: str object has no attribute get"

/-- The `_load` closure applied to the archive loader: any
`WeatherArchiveError` or other exception is swallowed and replaced by
`[]`; `extract_weather_from_db` otherwise returns a list of records
(`loader() or []` maps an empty list to `[]`, the identity here). -/
def load_archive (r : Except String (List WxRec)) : Fetched :=
  match r with
  | .error _ => .recs []
  | .ok rs => .recs rs

/-- The `_load` closure applied to the live-API loader:
`get_forecast_by_coords` never raises — it returns `None` on any failure,
which `loader() or []` turns into `[]`; on success it returns its payload
dict. -/
def load_api (r : Option ApiPayload) : Fetched :=
  match r with
  | none => .recs []
  | some p => .payload p

/-- The result dict of `get_weather_for_date` (`records`, `source`,
`status`; the `diagnostics` entries carry no decision weight and are
omitted). -/
structure WResult where
  records : Fetched
  source : String
  status : String
deriving DecidableEq, Repr

/-- `get_weather_for_date` (`weather_service.py`).  `isPast` is the
comparison `prediction_date < datetime.utcnow().date()`; the outcomes of
the two external fetches are inputs.  An `.error` result models an
uncaught exception escaping the function. -/
def get_weather_for_date (isPast : Bool)
    (archive : Except String (List WxRec)) (api : Option ApiPayload) :
    Except String WResult :=
  let primary : String × Fetched :=
    if isPast then ("archive_db", load_archive archive)
    else ("weather_api", load_api api)
  let secondary : String × Fetched :=
    if isPast then ("weather_api", load_api api)
    else ("archive_db", load_archive archive)
  match weather_non_null_points primary.2 with
  | .error e => .error e
  | .ok n1 =>
    if fetched_truthy primary.2 && decide (0 < n1) then
      .ok ⟨primary.2, primary.1, "ok"⟩
    else
      match weather_non_null_points secondary.2 with
      | .error e => .error e
      | .ok n2 =>
        if fetched_truthy secondary.2 && decide (0 < n2) then
          .ok ⟨secondary.2, secondary.1, "ok"⟩
        else .ok ⟨.recs [], "none", "no_data"⟩

/-- A successful live-API fetch with usable (non-null) weather values. -/
def apiPayload0 : ApiPayload :=
  ⟨"2024-01-01", "Nicosia", 35, 33, ["2024-01-01 06:00"], [some 10], [some 50]⟩

/-- **C3.** Failing input for the weather-source fallback: for a date
before today whose archive lookup returns no records, the live API is
attempted and succeeds — but `get_forecast_by_coords` returns a dict of
parallel lists, not a list of records, so `_weather_non_null_points`
iterates its string keys and `rec.get` raises `AttributeError`: the call
raises instead of returning `status = ok` with `source = weather_api`. -/
theorem get_weather_for_date_raises_on_api_success :
    get_weather_for_date true (.ok []) (some apiPayload0)
      = .error "AttributeError: str object has no attribute get"
    ∧ get_weather_for_date false (.error "decode failure") (some apiPayload0)
      = .error "AttributeError: str object has no attribute get" := by
  constructor
  · rfl
  · rfl

/-! ## 15-minute interpolation (`weather_api.py : interpolate_15min`) -/

/-- `pd.Series.reindex` of the 24 hourly values onto the 96-slot
15-minute grid: slot `i` holds the hourly value at positions that are
whole hours (`i % 4 = 0`, hour `i / 4`) and a missing value (`NaN`)
elsewhere. -/
def reindex96 (values : List ℚ) : List (Option ℚ) :=
  (List.range 96).map (fun i =>
    if i % 4 = 0 then some (values.getD (i / 4) 0) else none)

/-- Greatest index `j ≤ i` holding a present value, with that value. -/
def prevValid (xs : List (Option ℚ)) : ℕ → Option (ℕ × ℚ)
  | 0 => match xs.getD 0 none with
    | some v => some (0, v)
    | none => none
  | n + 1 => match xs.getD (n + 1) none with
    | some v => some (n + 1, v)
    | none => prevValid xs n

/-- Least index `k ≥ i` (below the length) holding a present value. -/
def nextValid (xs : List (Option ℚ)) (i : ℕ) : Option (ℕ × ℚ) :=
  ((List.range xs.length).drop i).findSome?
    (fun j => (xs.getD j none).map (fun v => (j, v)))

/-- `Series.interpolate(method="linear")` with the default forward limit
direction: present values are kept; a missing slot between two present
slots is filled by position-linear interpolation; trailing missing slots
take the last present value; leading missing slots stay missing. -/
def interpolate_linear_fill (xs : List (Option ℚ)) : List (Option ℚ) :=
  (List.range xs.length).map (fun i =>
    match xs.getD i none with
    | some v => some v
    | none =>
      match prevValid xs i, nextValid xs i with
      | some (j, a), some (k, b) =>
        some (a + (b - a) * (((i : ℚ) - (j : ℚ)) / ((k : ℚ) - (j : ℚ))))
      | some (_, a), none => some a
      | none, _ => none)

/-- `interpolate_15min` (`weather_api.py`): 24 hourly values to 96
quarter-hour values via reindex + linear interpolation. -/
def interpolate_15min (values : List ℚ) : List (Option ℚ) :=
  interpolate_linear_fill (reindex96 values)

/-- Python's `round` to an integer: round half to even. -/
def pyRound (q : ℚ) : ℤ :=
  let f := ⌊q⌋
  let frac := q - f
  if frac < 1 / 2 then f
  else if 1 / 2 < frac then f + 1
  else if f % 2 = 0 then f else f + 1

/-- `round(val, 1)` applied to each interpolated temperature in
`get_forecast_by_coords`. -/
def round_tenth (q : ℚ) : ℚ := (pyRound (q * 10) : ℚ) / 10

/-- The `cloud_15min` list built by `get_forecast_by_coords`:
interpolate, then `int(round(val))` per slot. -/
def forecast_cloud_15min (values : List ℚ) : List (Option ℤ) :=
  (interpolate_15min values).map (fun o => o.map pyRound)

/-- The `temp_c_15min` list built by `get_forecast_by_coords`:
interpolate, then `round(val, 1)` per slot. -/
def forecast_temp_15min (values : List ℚ) : List (Option ℚ) :=
  (interpolate_15min values).map (fun o => o.map round_tenth)

/-- The interpolation keeps every present slot unchanged. -/
theorem fill_keeps_present (xs : List (Option ℚ)) (i : ℕ) (hi : i < xs.length)
    (v : ℚ) (hv : xs.getD i none = some v) :
    (interpolate_linear_fill xs).getD i none = some v := by
  unfold interpolate_linear_fill
  rw [List.getD_eq_getElem?_getD] at hv
  rw [List.getD_eq_getElem?_getD, List.getElem?_map,
    List.getElem?_range (by simpa using hi)]
  simp [hv]

/-- Index lemma: slot `4*h` of the reindexed series holds hour `h`'s value. -/
theorem reindex96_at_hour (values : List ℚ) (h : ℕ) (hh : h < 24) :
    (reindex96 values).getD (4 * h) none = some (values.getD h 0) := by
  have h96 : 4 * h < 96 := by omega
  have hmod : 4 * h % 4 = 0 := by omega
  have hdiv : 4 * h / 4 = h := by omega
  simp [reindex96, List.getD, List.getElem?_map, List.getElem?_range, h96,
    hmod, hdiv]

/-- `getD` with a `none` fallback returning `some` pins down the entry. -/
theorem getElem?_of_getD_none {α : Type} (l : List (Option α)) (i : ℕ) (v : α)
    (h : l.getD i none = some v) : l[i]? = some (some v) := by
  rw [List.getD_eq_getElem?_getD] at h
  cases h' : l[i]? with
  | none => rw [h'] at h; simp at h
  | some a => rw [h'] at h; simp at h; rw [h]

/-- **C7.** Grid fidelity of the 15-minute resampling: for every 24-point
hourly series, the 96-point interpolated series reproduces the original
value exactly at each hour boundary (slot `4*h` equals hour `h`); after
interpolation the emitted cloud series carries the integer rounding of
that value while the temperature series stays a rational (rounded to a
tenth as the source does). -/
theorem interpolate_15min_hour_boundary (values : List ℚ) (h : ℕ)
    (_hlen : values.length = 24) (hh : h < 24) :
    (interpolate_15min values).getD (4 * h) none = some (values.getD h 0)
    ∧ (forecast_cloud_15min values).getD (4 * h) none
        = some (pyRound (values.getD h 0))
    ∧ (forecast_temp_15min values).getD (4 * h) none
        = some (round_tenth (values.getD h 0)) := by
  have h96 : 4 * h < 96 := by omega
  have hlen96 : (reindex96 values).length = 96 := by simp [reindex96]
  have hcore : (interpolate_15min values).getD (4 * h) none
      = some (values.getD h 0) :=
    fill_keeps_present (reindex96 values) (4 * h) (by omega) _
      (reindex96_at_hour values h hh)
  have hsome := getElem?_of_getD_none _ _ _ hcore
  refine ⟨hcore, ?_, ?_⟩
  · simp [forecast_cloud_15min, List.getD_eq_getElem?_getD, List.getElem?_map,
      hsome]
  · simp [forecast_temp_15min, List.getD_eq_getElem?_getD, List.getElem?_map,
      hsome]

/-- A concrete 24-point hourly series (values `3*k + 1`). -/
def hourly0 : List ℚ := (List.range 24).map (fun k => 3 * (k : ℚ) + 1)

/-- Witness for C7 at hour 6 of the concrete series. -/
theorem interpolate_15min_hour_boundary_witness :
    (interpolate_15min hourly0).getD 24 none = some (hourly0.getD 6 0)
    ∧ (forecast_cloud_15min hourly0).getD 24 none
        = some (pyRound (hourly0.getD 6 0))
    ∧ (forecast_temp_15min hourly0).getD 24 none
        = some (round_tenth (hourly0.getD 6 0)) :=
  interpolate_15min_hour_boundary hourly0 6 rfl (by omega)

/-! ## Power computation (`forecast_pipeline.py : compute_forecast`,
mirrored by `jobs/generate_forecasts.py : _build_rows_for_topic`) -/

/-- Python's `x or d` on a float: the default replaces a falsy (zero)
value. -/
def pyOr (x d : ℚ) : ℚ := if x = 0 then d else x

/-- Python's `rec.get(k, d) or d`: the default replaces a missing key, a
null value and a zero value alike. -/
def pyOrDefault (v : Option ℚ) (d : ℚ) : ℚ :=
  match v with
  | none => d
  | some x => pyOr x d

/-- Modelled from the spec: temperature derating factor of the external
`production.calculate_system_production` (module `production` is not among
the sources).  Equal to 1 at the 25 °C reference and decreasing in
temperature. -/
def tempDerate (t : ℚ) : ℚ := 1 - (t - 25) * (4 / 1000)

/-- Modelled from the spec: cloud derating factor, equal to 1 for a clear
sky and strictly decreasing in the cloud fraction. -/
def cloudDerate (c : ℚ) : ℚ := 1 - c / 2

/-- Modelled from the spec: linear age-based degradation relative to the
commissioning date, strictly decreasing in age. -/
def ageDerate (age_years degradation_rate : ℚ) : ℚ :=
  1 - degradation_rate * age_years

/-- Modelled from the spec: `production.calculate_system_production`
(not present in the sources).  Per §4.3 the final power applies temperature
derating, cloud derating, panel-count scaling and linear age-based
degradation multiplicatively to the base panel power; the elapsed time
between `forecast_date` and `commissioning_date` enters as `age_years`. -/
def calculate_system_production (panel_power temp_c cloud_cover : ℚ)
    (num_panels : ℤ) (age_years degradation_rate : ℚ) : ℚ :=
  panel_power * tempDerate temp_c * cloudDerate cloud_cover
    * (num_panels : ℚ) * ageDerate age_years degradation_rate

/-- The per-record body of `compute_forecast` (`forecast_pipeline.py`,
the loop over `weather["points"]`): the irradiance `irr` is the value of
the external `calculate_panel_irradiance` at the record's timestamp, and
`modelOut` is the loaded correction model's `predict` output (`none` when
no model is available).  Mirrors the source: below the 40 W/m² threshold
the predicted irradiance is zeroed; otherwise the model output, or the
raw irradiance as pass-through, feeds the base-power formula; the spec
defaults (`or 1000`, `or 17.7`, `max(total_panels, 1)`, `or 25`, `or 0`)
are applied as in `compute_forecast` lines 225–264. -/
def compute_forecast_point (mlen mwid : Option ℚ) (meff : ℚ)
    (total_panels : ℤ) (degradation_rate age_years : ℚ) (irr : ℚ)
    (modelOut : Option ℚ) (rec : WxRec) : ℚ :=
  let panel_area := pyOrDefault mlen 1000 / 1000
    * (pyOrDefault mwid 1000 / 1000)
  let module_eff := pyOr meff (177 / 10) / 100
  let num_panels := max total_panels 1
  let predicted := if irr < 40 then 0
    else match modelOut with
      | some m => m
      | none => irr
  let base := predicted * panel_area * module_eff
  calculate_system_production base (pyOrDefault rec.temp_c 25)
    (pyOrDefault rec.cloud 0 / 100) num_panels age_years degradation_rate

/-- **C4.** Irradiance cutoff and pass-through: below 40 W/m² the
computed power is 0 whatever the other inputs; at or above 40 with no
correction model the raw irradiance passes through unmodified, the base
power is `irr * (L/1000) * (W/1000) * (eff/100)`, and the resulting power
is strictly positive (under the physically sensible side conditions:
positive module dimensions and efficiency, temperature below the derating
zero, cloud percentage below 200, accumulated degradation below 1). -/
theorem compute_forecast_irradiance_cutoff
    (mlen mwid : Option ℚ) (meff : ℚ) (tp : ℤ) (dr age : ℚ) (irr : ℚ)
    (modelOut : Option ℚ) (rec : WxRec) :
    (irr < 40 →
      compute_forecast_point mlen mwid meff tp dr age irr modelOut rec = 0)
    ∧ (∀ L W, 40 ≤ irr → modelOut = none → mlen = some L → mwid = some W →
        0 < L → 0 < W → 0 < meff →
        pyOrDefault rec.temp_c 25 < 275 →
        0 ≤ pyOrDefault rec.cloud 0 → pyOrDefault rec.cloud 0 < 200 →
        dr * age < 1 →
        compute_forecast_point mlen mwid meff tp dr age irr modelOut rec
          = calculate_system_production
              (irr * (L / 1000) * (W / 1000) * (meff / 100))
              (pyOrDefault rec.temp_c 25) (pyOrDefault rec.cloud 0 / 100)
              (max tp 1) age dr
        ∧ 0 < compute_forecast_point mlen mwid meff tp dr age irr
              modelOut rec) := by
  constructor
  · intro hlt
    simp [compute_forecast_point, calculate_system_production, if_pos hlt]
  · intro L W h40 hmo hL hW hLpos hWpos hEpos ht hc0 hc200 hda
    subst hmo hL hW
    have hnot : ¬ irr < 40 := not_lt.mpr h40
    have e1 : pyOrDefault (some L) 1000 = L := by
      simp [pyOrDefault, pyOr, ne_of_gt hLpos]
    have e2 : pyOrDefault (some W) 1000 = W := by
      simp [pyOrDefault, pyOr, ne_of_gt hWpos]
    have e3 : pyOr meff (177 / 10) = meff := by
      simp [pyOr, ne_of_gt hEpos]
    have heq : compute_forecast_point (some L) (some W) meff tp dr age irr
        none rec
        = calculate_system_production
            (irr * (L / 1000) * (W / 1000) * (meff / 100))
            (pyOrDefault rec.temp_c 25) (pyOrDefault rec.cloud 0 / 100)
            (max tp 1) age dr := by
      simp only [compute_forecast_point, if_neg hnot, e1, e2, e3]
      congr 1
      ring
    refine ⟨heq, ?_⟩
    rw [heq]
    unfold calculate_system_production
    have hirr : 0 < irr := by linarith
    have hbase : 0 < irr * (L / 1000) * (W / 1000) * (meff / 100) := by
      have h1 : 0 < L / 1000 := by positivity
      have h2 : 0 < W / 1000 := by positivity
      have h3 : 0 < meff / 100 := by positivity
      exact mul_pos (mul_pos (mul_pos hirr h1) h2) h3
    have htd : 0 < tempDerate (pyOrDefault rec.temp_c 25) := by
      unfold tempDerate
      linarith
    have hcd : 0 < cloudDerate (pyOrDefault rec.cloud 0 / 100) := by
      unfold cloudDerate
      linarith
    have had : 0 < ageDerate age dr := by
      unfold ageDerate
      linarith
    have hnp : (0 : ℚ) < ((max tp 1 : ℤ) : ℚ) := by
      have h1 : (1 : ℤ) ≤ max tp 1 := le_max_right tp 1
      exact_mod_cast lt_of_lt_of_le Int.zero_lt_one h1
    exact mul_pos (mul_pos (mul_pos (mul_pos hbase htd) hcd) hnp) had

/-- Witness for C4: irradiance 39.9 gives power 0; irradiance 40.1 with
no model gives strictly positive power, for a concrete panel spec. -/
theorem compute_forecast_irradiance_cutoff_witness :
    compute_forecast_point (some 1700) (some 1000) (177 / 10) 10 (1 / 100) 2
      (399 / 10) none ⟨"t", some 10, some 50⟩ = 0
    ∧ 0 < compute_forecast_point (some 1700) (some 1000) (177 / 10) 10
        (1 / 100) 2 (401 / 10) none ⟨"t", some 10, some 50⟩ :=
  ⟨(compute_forecast_irradiance_cutoff (some 1700) (some 1000) (177 / 10) 10
      (1 / 100) 2 (399 / 10) none ⟨"t", some 10, some 50⟩).1 (by norm_num),
   ((compute_forecast_irradiance_cutoff (some 1700) (some 1000) (177 / 10) 10
      (1 / 100) 2 (401 / 10) none ⟨"t", some 10, some 50⟩).2 1700 1000
      (by norm_num) rfl rfl rfl (by norm_num) (by norm_num) (by norm_num)
      (by norm_num [pyOrDefault, pyOr]) (by norm_num [pyOrDefault, pyOr])
      (by norm_num [pyOrDefault, pyOr]) (by norm_num)).2⟩

/-- **C10.** A record whose `temp_c` field is exactly 0 (a falsy value)
is treated like a missing temperature: `float(rec.get("temp_c", 25) or
25)` substitutes the 25 °C default for `0`, for `None` and for a missing
key alike, so the computed power for temperature 0 equals the power for
temperature 25. -/
theorem temp_zero_treated_as_missing
    (mlen mwid : Option ℚ) (meff : ℚ) (tp : ℤ) (dr age : ℚ) (irr : ℚ)
    (modelOut : Option ℚ) (tm : String) (cloud : Option ℚ) :
    compute_forecast_point mlen mwid meff tp dr age irr modelOut
        ⟨tm, some 0, cloud⟩
      = compute_forecast_point mlen mwid meff tp dr age irr modelOut
        ⟨tm, some 25, cloud⟩
    ∧ compute_forecast_point mlen mwid meff tp dr age irr modelOut
        ⟨tm, none, cloud⟩
      = compute_forecast_point mlen mwid meff tp dr age irr modelOut
        ⟨tm, some 25, cloud⟩ := by
  constructor <;> norm_num [compute_forecast_point, pyOrDefault, pyOr]

/-! ## Non-finite propagation (C5): the float-level view of the same
computation -/

/-- A Python float: finite, NaN, or a signed infinity. -/
inductive PyFloat where
  | fin (q : ℚ)
  | nan
  | pinf
  | ninf
deriving DecidableEq, Repr

/-- Finiteness test (`math.isfinite`). -/
def PyFloat.isFinite : PyFloat → Bool
  | .fin _ => true
  | _ => false

/-- IEEE-754 multiplication on the abstract floats: NaN absorbs;
infinity times zero is NaN; otherwise infinities keep the product sign. -/
def PyFloat.mul : PyFloat → PyFloat → PyFloat
  | .fin a, .fin b => .fin (a * b)
  | .nan, _ => .nan
  | _, .nan => .nan
  | .pinf, .fin b => if 0 < b then .pinf else if b < 0 then .ninf else .nan
  | .fin a, .pinf => if 0 < a then .pinf else if a < 0 then .ninf else .nan
  | .ninf, .fin b => if 0 < b then .ninf else if b < 0 then .pinf else .nan
  | .fin a, .ninf => if 0 < a then .ninf else if a < 0 then .pinf else .nan
  | .pinf, .pinf => .pinf
  | .pinf, .ninf => .ninf
  | .ninf, .pinf => .ninf
  | .ninf, .ninf => .pinf

/-- The per-record body of `compute_forecast` at float precision, with the
correction model's `predict` output as an arbitrary float (a loaded model
can return NaN or an infinity).  The computed `power` is appended to the
output as `{"x": ..., "y": float(power)}` and to the cache rows as
`(topic, dt, float(power))` — the `float` cast is the identity on the
value, so this function IS the emitted `y` and the persisted power: no
finiteness check exists between the computation and the boundary. -/
def compute_forecast_emitted_y (mlen mwid : Option ℚ) (meff : ℚ)
    (total_panels : ℤ) (degradation_rate age_years : ℚ) (irr : ℚ)
    (modelOut : Option PyFloat) (rec : WxRec) : PyFloat :=
  let panel_area := pyOrDefault mlen 1000 / 1000
    * (pyOrDefault mwid 1000 / 1000)
  let module_eff := pyOr meff (177 / 10) / 100
  let num_panels := max total_panels 1
  let predicted : PyFloat := if irr < 40 then .fin 0
    else match modelOut with
      | some m => m
      | none => .fin irr
  let base := (predicted.mul (.fin panel_area)).mul (.fin module_eff)
  ((((base.mul (.fin (tempDerate (pyOrDefault rec.temp_c 25)))).mul
      (.fin (cloudDerate (pyOrDefault rec.cloud 0 / 100)))).mul
      (.fin ((num_panels : ℤ) : ℚ))).mul
      (.fin (ageDerate age_years degradation_rate)))

/-- The sanitization step as the spec words it (for comparison with the
code): a non-finite power is replaced by a null/absent marker before
being returned or persisted. -/
def sanitize_power_spec (p : PyFloat) : Option ℚ :=
  match p with
  | .fin q => some q
  | _ => none

/-- **C5 counterexample.** With a correction model returning NaN and
irradiance above the threshold, the `y` value emitted by
`compute_forecast` (and the power value handed to `bulk_upsert_points`)
is NaN — whereas the claim requires every non-finite result to be
replaced by the null marker (`sanitize_power_spec` would yield `none`). -/
theorem compute_forecast_emits_nan :
    compute_forecast_emitted_y (some 1700) (some 1000) (177 / 10) 10
        (1 / 100) 2 41 (some .nan) ⟨"t", some 10, some 50⟩ = PyFloat.nan
    ∧ sanitize_power_spec
        (compute_forecast_emitted_y (some 1700) (some 1000) (177 / 10) 10
          (1 / 100) 2 41 (some .nan) ⟨"t", some 10, some 50⟩) = none := by
  constructor
  · rfl
  · rfl

/-- Multiplying a non-finite float by any finite float stays non-finite. -/
theorem PyFloat.mul_fin_not_finite (a : PyFloat) (q : ℚ)
    (h : a.isFinite = false) : (a.mul (.fin q)).isFinite = false := by
  cases a with
  | fin x => simp [PyFloat.isFinite] at h
  | nan => rfl
  | pinf =>
    simp only [PyFloat.mul]
    split <;> try rfl
    split <;> rfl
  | ninf =>
    simp only [PyFloat.mul]
    split <;> try rfl
    split <;> rfl

/-- **C5 (amended).** No sanitization exists on the power path:
`compute_forecast` emits `float(power)` unchanged and
`bulk_upsert_points` persists the given value, so any non-finite output
of the correction model propagates to a non-finite emitted/persisted
power whenever the irradiance reaches the threshold — it is never
replaced by a null marker (only the `weather_info` endpoint sanitizes
its temperature/cloud fields). -/
theorem compute_forecast_no_sanitization
    (mlen mwid : Option ℚ) (meff : ℚ) (tp : ℤ) (dr age : ℚ) (irr : ℚ)
    (v : PyFloat) (rec : WxRec) (hv : v.isFinite = false) (h40 : 40 ≤ irr) :
    (compute_forecast_emitted_y mlen mwid meff tp dr age irr (some v)
        rec).isFinite = false
    ∧ sanitize_power_spec
        (compute_forecast_emitted_y mlen mwid meff tp dr age irr (some v)
          rec) = none := by
  have hnot : ¬ irr < 40 := not_lt.mpr h40
  have hbad : (compute_forecast_emitted_y mlen mwid meff tp dr age irr
      (some v) rec).isFinite = false := by
    simp only [compute_forecast_emitted_y, if_neg hnot]
    exact PyFloat.mul_fin_not_finite _ _ (PyFloat.mul_fin_not_finite _ _
      (PyFloat.mul_fin_not_finite _ _ (PyFloat.mul_fin_not_finite _ _
        (PyFloat.mul_fin_not_finite _ _ (PyFloat.mul_fin_not_finite _ _ hv)))))
  refine ⟨hbad, ?_⟩
  cases h : compute_forecast_emitted_y mlen mwid meff tp dr age irr
      (some v) rec with
  | fin q => rw [h] at hbad; simp [PyFloat.isFinite] at hbad
  | nan => rfl
  | pinf => rfl
  | ninf => rfl

/-- Witness for C5 (amended): the NaN model output at irradiance 41. -/
theorem compute_forecast_no_sanitization_witness :
    (compute_forecast_emitted_y (some 1700) (some 1000) (177 / 10) 10
        (1 / 100) 2 41 (some .nan) ⟨"t", some 10, some 50⟩).isFinite = false
    ∧ sanitize_power_spec
        (compute_forecast_emitted_y (some 1700) (some 1000) (177 / 10) 10
          (1 / 100) 2 41 (some .nan) ⟨"t", some 10, some 50⟩) = none :=
  compute_forecast_no_sanitization (some 1700) (some 1000) (177 / 10) 10
    (1 / 100) 2 41 .nan ⟨"t", some 10, some 50⟩ rfl (by norm_num)

/-! ## Forecast cache (`forecast_db.py`) -/

/-- A row of `pv_forecast_points` (schema from `run_migrations`): primary
key `(topic, ts)`, plus `power`, `source` and the write timestamp
`created_at`. -/
structure FRow where
  topic : String
  ts : ℕ
  power : ℚ
  source : String
  created_at : ℕ
deriving DecidableEq, Repr

/-- The `ON CONFLICT (topic, ts)` key test. -/
def rowKeyMatches (t : String) (ts : ℕ) (r : FRow) : Bool :=
  r.topic == t && r.ts == ts

/-- One inserted row under `INSERT ... ON CONFLICT (topic, ts) DO UPDATE
SET power = EXCLUDED.power, source = EXCLUDED.source, created_at =
now()`: an existing row with the key is overwritten in place (with the
refreshed write timestamp `now`), otherwise the row is appended. -/
def upsert_one (now : ℕ) (tbl : List FRow) (w : String × ℕ × ℚ × String) :
    List FRow :=
  let newRow : FRow := ⟨w.1, w.2.1, w.2.2.1, w.2.2.2, now⟩
  if tbl.any (rowKeyMatches w.1 w.2.1) then
    tbl.map (fun r => if rowKeyMatches w.1 w.2.1 r then newRow else r)
  else tbl ++ [newRow]

/-- `bulk_upsert_points` (`forecast_db.py`): the batch insert applies the
upsert row by row; an empty batch returns the table unchanged (the early
`if not rows: return`). -/
def bulk_upsert_points (now : ℕ) (tbl : List FRow)
    (rows : List (String × ℕ × ℚ × String)) : List FRow :=
  rows.foldl (upsert_one now) tbl

/-- The `PRIMARY KEY (topic, ts)` invariant: no two rows share a key. -/
def uniqueKeys (tbl : List FRow) : Prop :=
  tbl.Pairwise (fun a b => ¬(a.topic = b.topic ∧ a.ts = b.ts))

/-- Unfolding of the key test. -/
theorem rowKeyMatches_iff (t : String) (ts : ℕ) (r : FRow) :
    rowKeyMatches t ts r = true ↔ r.topic = t ∧ r.ts = ts := by
  simp [rowKeyMatches]

/-- One upsert preserves key uniqueness. -/
theorem upsert_one_uniqueKeys (now : ℕ) (tbl : List FRow)
    (w : String × ℕ × ℚ × String) (hU : uniqueKeys tbl) :
    uniqueKeys (upsert_one now tbl w) := by
  unfold upsert_one
  split
  · rename_i hAny
    rw [uniqueKeys, List.pairwise_map]
    refine hU.imp ?_
    intro a b hab
    intro hcon
    apply hab
    have hka : ∀ r : FRow,
        ((if rowKeyMatches w.1 w.2.1 r then
          (⟨w.1, w.2.1, w.2.2.1, w.2.2.2, now⟩ : FRow) else r).topic = r.topic
        ∧ (if rowKeyMatches w.1 w.2.1 r then
          (⟨w.1, w.2.1, w.2.2.1, w.2.2.2, now⟩ : FRow) else r).ts = r.ts) := by
      intro r
      by_cases h : rowKeyMatches w.1 w.2.1 r = true
      · have := (rowKeyMatches_iff _ _ r).mp h
        simp [h, this.1, this.2]
      · simp [h]
    rcases hcon with ⟨h1, h2⟩
    rw [(hka a).1, (hka b).1] at h1
    rw [(hka a).2, (hka b).2] at h2
    exact ⟨h1, h2⟩
  · rename_i hAny
    rw [uniqueKeys, List.pairwise_append]
    refine ⟨hU, List.pairwise_singleton _ _, ?_⟩
    intro a ha b hb
    simp only [List.mem_singleton] at hb
    subst hb
    intro hcon
    have : rowKeyMatches w.1 w.2.1 a = true :=
      (rowKeyMatches_iff _ _ a).mpr ⟨hcon.1, hcon.2⟩
    exact hAny (List.any_eq_true.mpr ⟨a, ha, this⟩)

/-- In the overwrite case the rows matching the key collapse to exactly
the freshly written row. -/
theorem filter_map_replace (t : String) (ts : ℕ) (p : ℚ) (s : String)
    (now : ℕ) :
    ∀ tbl : List FRow, uniqueKeys tbl →
    tbl.any (rowKeyMatches t ts) = true →
    (tbl.map (fun r => if rowKeyMatches t ts r then
        (⟨t, ts, p, s, now⟩ : FRow) else r)).filter (rowKeyMatches t ts)
      = [⟨t, ts, p, s, now⟩] := by
  intro tbl
  induction tbl with
  | nil => intro _ h; simp at h
  | cons r rest ih =>
    intro hU hAny
    rw [uniqueKeys, List.pairwise_cons] at hU
    obtain ⟨hhead, hrest⟩ := hU
    by_cases hr : rowKeyMatches t ts r = true
    · have hrk := (rowKeyMatches_iff t ts r).mp hr
      simp only [List.map_cons, if_pos hr]
      rw [List.filter_cons_of_pos (by simp [rowKeyMatches])]
      have hnil : ((rest.map (fun x => if rowKeyMatches t ts x then
          (⟨t, ts, p, s, now⟩ : FRow) else x)).filter (rowKeyMatches t ts))
          = [] := by
        rw [List.filter_eq_nil_iff]
        intro x hx
        rw [List.mem_map] at hx
        obtain ⟨y, hy, hxy⟩ := hx
        have hyk : rowKeyMatches t ts y = false := by
          by_contra hcon
          rw [Bool.not_eq_false] at hcon
          have := (rowKeyMatches_iff t ts y).mp hcon
          exact hhead y hy ⟨hrk.1.trans this.1.symm, hrk.2.trans this.2.symm⟩
        rw [← hxy, if_neg (by simp [hyk]), hyk]
        simp
      rw [hnil]
    · have hrf : rowKeyMatches t ts r = false := by
        simpa using hr
      have hneg : ¬ (rowKeyMatches t ts r = true) := by simp [hrf]
      simp only [List.map_cons, if_neg hneg]
      rw [List.filter_cons_of_neg (by simp [hrf])]
      apply ih hrest
      rcases List.any_eq_true.mp hAny with ⟨x, hx, hxk⟩
      rcases List.mem_cons.mp hx with h | h
      · subst h; rw [hxk] at hrf; exact absurd hrf (by simp)
      · exact List.any_eq_true.mpr ⟨x, h, hxk⟩

/-- After one upsert of a key the table holds exactly one row with that
key, carrying the written values and the refreshed timestamp. -/
theorem upsert_one_filter (now : ℕ) (tbl : List FRow) (t : String) (ts : ℕ)
    (p : ℚ) (s : String) (hU : uniqueKeys tbl) :
    (upsert_one now tbl (t, ts, p, s)).filter (rowKeyMatches t ts)
      = [⟨t, ts, p, s, now⟩] := by
  unfold upsert_one
  split
  · rename_i hAny
    exact filter_map_replace t ts p s now tbl hU hAny
  · rename_i hAny
    rw [List.filter_append]
    rw [List.filter_eq_nil_iff.mpr (fun a ha hk => hAny
      (List.any_eq_true.mpr ⟨a, ha, by simpa using hk⟩))]
    simp [rowKeyMatches]

/-- A sequence of `bulk_upsert_points` calls, each writing one row with
the fixed key `(t, ts)` at its own write time. -/
def upsert_same_key (t : String) (ts : ℕ) (tbl : List FRow)
    (writes : List (ℚ × String × ℕ)) : List FRow :=
  writes.foldl (fun tb w => bulk_upsert_points w.2.2 tb [(t, ts, w.1, w.2.1)])
    tbl

/-- Key uniqueness is preserved across the whole write sequence. -/
theorem upsert_same_key_uniqueKeys (t : String) (ts : ℕ)
    (writes : List (ℚ × String × ℕ)) :
    ∀ tbl : List FRow, uniqueKeys tbl →
      uniqueKeys (upsert_same_key t ts tbl writes) := by
  induction writes with
  | nil => intro tbl hU; exact hU
  | cons w ws ih =>
    intro tbl hU
    exact ih _ (upsert_one_uniqueKeys w.2.2 tbl (t, ts, w.1, w.2.1) hU)

/-- **C6.** Upsert idempotence: for every sequence of upsert calls writing
the key `(t, ts)` (with arbitrary powers, sources and write times), the
cache afterwards holds exactly one row for that key — the one carrying
the power, source and write timestamp of the last write — and repeated
writes never create duplicate rows (key uniqueness is an invariant). -/
theorem upsert_last_write_wins (tbl : List FRow) (t : String) (ts : ℕ)
    (writes : List (ℚ × String × ℕ)) (p : ℚ) (s : String) (n : ℕ)
    (hU : uniqueKeys tbl) :
    (upsert_same_key t ts tbl (writes ++ [(p, s, n)])).filter
        (rowKeyMatches t ts) = [⟨t, ts, p, s, n⟩]
    ∧ uniqueKeys (upsert_same_key t ts tbl (writes ++ [(p, s, n)])) := by
  have hmid : uniqueKeys (upsert_same_key t ts tbl writes) :=
    upsert_same_key_uniqueKeys t ts writes tbl hU
  have hsplit : upsert_same_key t ts tbl (writes ++ [(p, s, n)])
      = upsert_one n (upsert_same_key t ts tbl writes) (t, ts, p, s) := by
    unfold upsert_same_key
    rw [List.foldl_append]
    rfl
  rw [hsplit]
  exact ⟨upsert_one_filter n _ t ts p s hmid,
    upsert_one_uniqueKeys n _ (t, ts, p, s) hmid⟩

/-- Witness for C6: three writes of the same key into an empty table
leave exactly one row, holding the last write's values. -/
theorem upsert_last_write_wins_witness :
    (upsert_same_key "T1" 12 [] ([(5, "a", 1), (6, "b", 2)] ++ [(7, "c", 3)])).filter
        (rowKeyMatches "T1" 12) = [⟨"T1", 12, 7, "c", 3⟩]
    ∧ uniqueKeys (upsert_same_key "T1" 12 []
        ([(5, "a", 1), (6, "b", 2)] ++ [(7, "c", 3)])) :=
  upsert_last_write_wins [] "T1" 12 [(5, "a", 1), (6, "b", 2)] 7 "c" 3
    (List.Pairwise.nil)

/-- The `ORDER BY topic, ts` ordering of `select_points`. -/
def rowLEP (a b : FRow) : Prop :=
  a.topic < b.topic ∨ (a.topic = b.topic ∧ a.ts ≤ b.ts)

instance : DecidableRel rowLEP := fun a b => by
  unfold rowLEP
  infer_instance

instance : IsTotal FRow rowLEP := by
  refine ⟨fun a b => ?_⟩
  unfold rowLEP
  rcases lt_trichotomy a.topic b.topic with h | h | h
  · exact Or.inl (Or.inl h)
  · rcases le_total a.ts b.ts with h2 | h2
    · exact Or.inl (Or.inr ⟨h, h2⟩)
    · exact Or.inr (Or.inr ⟨h.symm, h2⟩)
  · exact Or.inr (Or.inl h)

instance : IsTrans FRow rowLEP := by
  refine ⟨fun a b c hab hbc => ?_⟩
  unfold rowLEP at hab hbc ⊢
  rcases hab with h1 | ⟨h1, h1t⟩
  · rcases hbc with h2 | ⟨h2, _⟩
    · exact Or.inl (h1.trans h2)
    · exact Or.inl (h2 ▸ h1)
  · rcases hbc with h2 | ⟨h2, h2t⟩
    · exact Or.inl (h1 ▸ h2)
    · exact Or.inr ⟨h1.trans h2, h1t.trans h2t⟩

/-- The half-open window test `ts >= :start_ts AND ts < :end_ts`. -/
def in_window (a b : ℕ) (r : FRow) : Bool :=
  decide (a ≤ r.ts) && decide (r.ts < b)

/-- Key order of the Python dict comprehension
`{topic: [] for topic in topics}`: first occurrence wins. -/
def dedupFirst (l : List String) : List String :=
  l.foldl (fun acc t => if t ∈ acc then acc else acc ++ [t]) []

/-- `select_points` (`forecast_db.py`): an empty topic list returns the
empty dict; otherwise the rows of the requested topics inside the
half-open window are sorted by `(topic, ts)` and distributed into the
result dict, whose keys are exactly the (deduplicated) requested
topics — a topic without rows keeps its initialised empty list. -/
def select_points (tbl : List FRow) (topics : List String) (a b : ℕ) :
    List (String × List FRow) :=
  if topics.isEmpty then []
  else
    let sorted := List.insertionSort rowLEP
      (tbl.filter (fun r => topics.contains r.topic && in_window a b r))
    (dedupFirst topics).map (fun t => (t, sorted.filter (fun r => r.topic == t)))

/-- Membership through the deduplicating fold. -/
theorem mem_dedupFirst_aux (l : List String) :
    ∀ acc x, x ∈ l.foldl (fun acc t => if t ∈ acc then acc else acc ++ [t]) acc
      ↔ x ∈ acc ∨ x ∈ l := by
  induction l with
  | nil => intro acc x; simp
  | cons t ts ih =>
    intro acc x
    rw [List.foldl_cons, ih]
    by_cases h : t ∈ acc
    · rw [if_pos h]
      constructor
      · rintro (hx | hx)
        · exact Or.inl hx
        · exact Or.inr (List.mem_cons_of_mem t hx)
      · rintro (hx | hx)
        · exact Or.inl hx
        · rcases List.mem_cons.mp hx with rfl | hx
          · exact Or.inl h
          · exact Or.inr hx
    · rw [if_neg h]
      constructor
      · rintro (hx | hx)
        · rcases List.mem_append.mp hx with hx | hx
          · exact Or.inl hx
          · simp only [List.mem_singleton] at hx
            exact Or.inr (hx ▸ List.mem_cons_self t ts)
        · exact Or.inr (List.mem_cons_of_mem t hx)
      · rintro (hx | hx)
        · exact Or.inl (List.mem_append.mpr (Or.inl hx))
        · rcases List.mem_cons.mp hx with rfl | hx
          · exact Or.inl (List.mem_append.mpr (Or.inr (by simp)))
          · exact Or.inr hx

/-- Deduplication keeps exactly the requested topics. -/
theorem mem_dedupFirst (l : List String) (x : String) :
    x ∈ dedupFirst l ↔ x ∈ l := by
  rw [dedupFirst, mem_dedupFirst_aux]
  simp

/-- Looking a key up in a keyed map image. -/
theorem lookup_map_pair (keys : List String) (f : String → List FRow)
    (t : String) (ht : t ∈ keys) :
    (keys.map (fun k => (k, f k))).lookup t = some (f t) := by
  induction keys with
  | nil => simp at ht
  | cons k ks ih =>
    rw [List.map_cons]
    by_cases h : t = k
    · subst h
      simp [List.lookup]
    · have hbeq : (t == k) = false := beq_eq_false_iff_ne.mpr h
      simp only [List.lookup, hbeq]
      exact ih (List.mem_cons.mp ht |>.resolve_left h)

/-- **C8.** Cache select shape: for a non-empty topic list, every
requested topic is a key of the result; its list contains exactly the
cached rows of that topic with `start <= ts < end` (start inclusive, end
exclusive), in non-decreasing timestamp order — in particular a topic
with no rows in the window maps to the empty list rather than being
absent. -/
theorem select_points_shape (tbl : List FRow) (topics : List String)
    (a b : ℕ) (hne : topics ≠ []) (t : String) (ht : t ∈ topics) :
    ∃ l, (select_points tbl topics a b).lookup t = some l
      ∧ (∀ r : FRow, r ∈ l ↔ r ∈ tbl ∧ r.topic = t ∧ a ≤ r.ts ∧ r.ts < b)
      ∧ l.Pairwise (fun x y => x.ts ≤ y.ts) := by
  have hnem : ¬ topics.isEmpty := by simpa [List.isEmpty_iff] using hne
  refine ⟨(List.insertionSort rowLEP
      (tbl.filter (fun r => topics.contains r.topic && in_window a b r))).filter
      (fun r => r.topic == t), ?_, ?_, ?_⟩
  · unfold select_points
    rw [if_neg hnem]
    exact lookup_map_pair _ _ t ((mem_dedupFirst topics t).mpr ht)
  · intro r
    rw [List.mem_filter]
    rw [(List.perm_insertionSort rowLEP _).mem_iff]
    rw [List.mem_filter]
    constructor
    · rintro ⟨⟨hmem, hcond⟩, hteq⟩
      rw [Bool.and_eq_true] at hcond
      have hw := hcond.2
      rw [in_window, Bool.and_eq_true, decide_eq_true_eq, decide_eq_true_eq]
        at hw
      exact ⟨hmem, by simpa using hteq, hw.1, hw.2⟩
    · rintro ⟨hmem, hteq, h1, h2⟩
      refine ⟨⟨hmem, ?_⟩, by simpa using hteq⟩
      rw [Bool.and_eq_true]
      constructor
      · rw [List.contains_eq_any_beq]
        exact List.any_eq_true.mpr ⟨r.topic, by rw [hteq]; simpa using ht,
          by simp⟩
      · rw [in_window, Bool.and_eq_true, decide_eq_true_eq, decide_eq_true_eq]
        exact ⟨h1, h2⟩
  · have hsorted : (List.insertionSort rowLEP
        (tbl.filter (fun r => topics.contains r.topic && in_window a b r))).Pairwise
        rowLEP := List.sorted_insertionSort rowLEP _
    have hsub := List.Pairwise.sublist
      (@List.filter_sublist FRow (fun r => r.topic == t) _) hsorted
    refine List.Pairwise.imp_of_mem ?_ hsub
    intro x y hx hy hxy
    have hxt : x.topic = t := by
      have := (List.mem_filter.mp hx).2
      simpa using this
    have hyt : y.topic = t := by
      have := (List.mem_filter.mp hy).2
      simpa using this
    rcases hxy with h | ⟨_, h⟩
    · rw [hxt, hyt] at h
      exact absurd h (lt_irrefl t)
    · exact h

/-- A concrete two-row cache table. -/
def tblW : List FRow :=
  [⟨"T1", 12, 5, "cache", 0⟩, ⟨"T1", 30, 6, "cache", 0⟩]

/-- Witness for C8: topic `T2` has no rows in the window yet is a key of
the result (mapped to the empty characterization). -/
theorem select_points_shape_witness :
    ∃ l, (select_points tblW ["T1", "T2"] 10 20).lookup "T2" = some l
      ∧ (∀ r : FRow, r ∈ l ↔ r ∈ tblW ∧ r.topic = "T2" ∧ 10 ≤ r.ts ∧ r.ts < 20)
      ∧ l.Pairwise (fun x y => x.ts ≤ y.ts) :=
  select_points_shape tblW ["T1", "T2"] 10 20 (by simp) "T2" (by simp)

/-! ## Request validation (`app.py : predict`) -/

/-- A FastAPI `HTTPException`, status code plus human-readable detail. -/
structure HttpError where
  status : ℕ
  detail : String
deriving DecidableEq, Repr

/-- The `/predict` handler (`app.py`): reject when the topic list exceeds
`settings.max_topics_per_request`; then parse the date (`parsed_date` is
the outcome of `datetime.strptime`, `none` on `ValueError`), rejecting a
malformed one; otherwise serve the cached points of the one-day window.
No emptiness check on `topics` exists. -/
def predict (limit : ℕ) (topics : List String) (parsed_date : Option ℕ)
    (tbl : List FRow) :
    Except HttpError (String × List (String × List FRow)) :=
  if topics.length > limit then .error ⟨400, "topics limit exceeded"⟩
  else
    match parsed_date with
    | none => .error ⟨400, "invalid date format"⟩
    | some d => .ok ("cache", select_points tbl topics d (d + 1))

/-- **C9 counterexample.** An empty topic list is NOT rejected: with a
valid date it passes both checks and the handler answers 200 with an
empty points dict, contradicting the claim that an empty list is turned
away before computation. -/
theorem predict_accepts_empty_topics :
    predict 1000 [] (some 5) [] = .ok ("cache", []) := by
  rfl

/-- **C9 (amended).** An over-limit topic list and a malformed date are
rejected before any computation with a 400 error carrying a
human-readable message; an empty topic list, however, is accepted and
yields an empty result dict. -/
theorem predict_validation (limit : ℕ) (topics : List String)
    (parsed : Option ℕ) (tbl : List FRow) :
    (topics.length > limit →
      predict limit topics parsed tbl = .error ⟨400, "topics limit exceeded"⟩)
    ∧ (topics.length ≤ limit → parsed = none →
      predict limit topics parsed tbl = .error ⟨400, "invalid date format"⟩)
    ∧ (∀ d, topics = [] → parsed = some d →
      predict limit topics parsed tbl = .ok ("cache", [])) := by
  refine ⟨fun h => ?_, fun h hp => ?_, fun d htop hp => ?_⟩
  · simp [predict, if_pos h]
  · subst hp
    simp [predict, if_neg (not_lt.mpr h)]
  · subst htop hp
    simp [predict, select_points]

/-- Witness for C9 (amended): the three behaviours at concrete inputs. -/
theorem predict_validation_witness :
    predict 2 ["a", "b", "c"] (some 5) []
      = .error ⟨400, "topics limit exceeded"⟩
    ∧ predict 2 ["a"] none [] = .error ⟨400, "invalid date format"⟩
    ∧ predict 2 ([] : List String) (some 5) [] = .ok ("cache", []) :=
  ⟨(predict_validation 2 ["a", "b", "c"] (some 5) []).1 (by norm_num),
   (predict_validation 2 ["a"] none []).2.1 (by norm_num) rfl,
   (predict_validation 2 [] (some 5) []).2.2 5 rfl rfl⟩
